import Mathlib

/-!
Verification of the mockem runtime (src/src/lib.rs, src/src/store.rs) and its
source-instrumentation pass (src/derive/src/parse.rs).

The runtime store is a thread-local `MockStore`, a
`RefCell<HashMap<TypeId, VecDeque<MockReturn>>>`.  We embed it as a total
function from identities (`Nat`, standing for `TypeId`) to the queue for that
identity.  In the Rust `HashMap`, an absent key and a key mapped to an empty
`VecDeque` are observationally identical for every store operation
(`mock_exists` returns false for both, `get` returns `None` for both, `add`
produces the one-element queue for both), so the embedding represents both by
the empty list.

A `MockReturn` in the Rust source is a type-erased `FnMut` closure together
with its `Option<usize>` repeat count.  A closure is embedded by its
observable effects when invoked: the value it returns (`ret`), the store
additions it performs re-entrantly while running (`adds`), and whether it
re-registers itself once for its own identity while running (`refillSelf`,
the self-refilling recursive-mock pattern, in which the closure's `adds`
cannot be written as a finite literal because the added entry is the entry
itself).  The claims under study exercise nullary behaviors (`b1()`, `b2()`),
so `ret` does not take the forwarded argument tuple.
-/

namespace Mockem

/-- An override entry: the behavior's observable effects plus the
`Option<usize>` repeat count (`some n` = `Some(n)` finite, `none` = `None`
unlimited), mirroring `struct MockReturn(Rc<Box<dyn FnMut() -> ()>>, Option<usize>)`. -/
inductive MockReturn where
  | mk (ret : Nat) (adds : List (Nat × MockReturn)) (refillSelf : Bool) (rep : Option Nat)

/-- The value the behavior returns when invoked. -/
def MockReturn.ret : MockReturn → Nat
  | .mk r _ _ _ => r

/-- The re-entrant `add` operations the behavior performs while running. -/
def MockReturn.adds : MockReturn → List (Nat × MockReturn)
  | .mk _ a _ _ => a

/-- Whether the behavior re-registers itself via `mock_once` while running. -/
def MockReturn.refillSelf : MockReturn → Bool
  | .mk _ _ f _ => f

/-- The repeat count of the entry. -/
def MockReturn.rep : MockReturn → Option Nat
  | .mk _ _ _ p => p

/-- The override store: identity (`TypeId`) to FIFO queue, embedding
`mocks: RefCell<HashMap<TypeId, VecDeque<MockReturn>>>` from store.rs.
List head = `VecDeque` front. -/
abbrev Store := Nat → List MockReturn

/-- The store a fresh thread starts with (`MockStore::default()`). -/
def Store.empty : Store := fun _ => []

/-- Replace the queue stored for one identity, leaving all others unchanged. -/
def Store.setQueue (s : Store) (id : Nat) (q : List MockReturn) : Store :=
  fun k => if k = id then q else s k

/-- `MockStore::add`: push the entry at the back of the queue for `id`,
creating the queue (`insert(id, vec![value].into())`) if absent. -/
def Store.add (s : Store) (id : Nat) (v : MockReturn) : Store :=
  s.setQueue id (s id ++ [v])

/-- `MockStore::mock_exists`: the queue for `id` is present and non-empty. -/
def Store.mock_exists (s : Store) (id : Nat) : Bool :=
  !(s id).isEmpty

/-- `MockStore::get`: pop and return the front entry of the queue for `id`,
or `None` when the queue is absent or empty.  The popped store is returned
alongside because the embedding is state-passing. -/
def Store.get (s : Store) (id : Nat) : Option (MockReturn × Store) :=
  match s id with
  | [] => none
  | v :: rest => some (v, s.setQueue id rest)

/-- `MockStore::remove`: drop the whole queue for `id`. -/
def Store.remove (s : Store) (id : Nat) : Store :=
  s.setQueue id []

/-- `MockStore::clear`: drop every queue. -/
def Store.clear (_ : Store) : Store := fun _ => []

/-- Perform a behavior's re-entrant adds in order (the `mock_*` calls the
closure makes while running). -/
def applyAdds (s : Store) (l : List (Nat × MockReturn)) : Store :=
  l.foldl (fun st p => st.add p.1 p.2) s

/-- `CallMock::call_mock` from lib.rs, as a state transformer.  `none` embeds
the fatal `panic!("mock should exist")` taken when `mock_store.get(id)`
returns `None`.  Otherwise, in source order: the entry has already been
detached from the queue by `get`; the behavior is invoked (`let ret =
boxed()`), performing its re-entrant adds and, in the self-refilling pattern,
re-registering itself with count `Some(1)` (`mock_once`); then the repeat
accounting runs: `Some(r)` with `r > 1` re-adds the behavior with `Some(r-1)`,
`Some(r)` with `r <= 1` discards it, and `None` re-adds it unchanged.
(`Rc::into_inner(with).expect(..)` cannot fail here: `get` moved out the only
`Rc` the store held, so the strong count is one.) -/
def call_mock (id : Nat) (s : Store) : Option (Nat × Store) :=
  match s.get id with
  | none => none
  | some (.mk r adds refill rep, s1) =>
    let s2 := applyAdds s1 adds
    let s3 := if refill then s2.add id (.mk r adds refill (some 1)) else s2
    let s4 :=
      match rep with
      | some n => if n > 1 then s3.add id (.mk r adds refill (some (n - 1))) else s3
      | none => s3.add id (.mk r adds refill none)
    some (r, s4)

/-- `MockCall::mock_repeat`: wrap the behavior with the given repeat count and
`add` it to the queue for `id`. -/
def mock_repeat (s : Store) (id : Nat) (rep : Option Nat)
    (ret : Nat) (adds : List (Nat × MockReturn)) (refill : Bool) : Store :=
  s.add id (.mk ret adds refill rep)

/-- `MockCall::mock_once`: `self.mock_repeat(Some(1), with)`. -/
def mock_once (s : Store) (id : Nat) (ret : Nat)
    (adds : List (Nat × MockReturn)) (refill : Bool) : Store :=
  mock_repeat s id (some 1) ret adds refill

/-- Per-identity `ClearMocks::clear_mocks`: `mock_store.remove(id)`. -/
def clear_mocks (s : Store) (id : Nat) : Store :=
  s.remove id

/-- The dispatch prologue spliced ahead of the original body by the
instrumentation pass (parse.rs): `if f.mock_exists(..) { return
f.call_mock((args,)); }` followed by the untouched original statements,
embedded as one call of the instrumented callable on argument `x` with
original body `orig`. -/
def instrumentedCall (id : Nat) (orig : Nat → Nat) (x : Nat) (s : Store) :
    Option (Nat × Store) :=
  if s.mock_exists id then call_mock id s
  else some (orig x, s)

/-- `n` successive calls of the instrumented callable, collecting the returned
values; `none` if any call panics. -/
def iterCalls : Nat → (Nat → Nat) → Nat → Nat → Store → Option (List Nat × Store)
  | 0, _, _, _, s => some ([], s)
  | n + 1, orig, id, x, s =>
    match instrumentedCall id orig x s with
    | none => none
    | some (v, s') =>
      match iterCalls n orig id x s' with
      | none => none
      | some (vs, s'') => some (v :: vs, s'')

/-!
## Identity resolution

`CallMock::get_mock_id` is `(|| ()).type_id()`: the `TypeId` of a
capture-free closure written inside the default body of the generic trait
`CallMock<I, O, Fut>`.  Rust monomorphizes that body once per implementing
function-item type `Self`, and each monomorphized context declares a distinct
closure type, so the resulting `TypeId` is a function of the static
function-item type alone — each declared callable (free function, method on a
concrete type, trait method for an implementer, generic instantiation) has
its own zero-sized function-item type.  The embedding makes the static type
explicit (`StaticCallable`) and realizes the language guarantee "distinct
types have distinct `TypeId`s within one process" by an injective encoding,
proved injective below.  A runtime reference value (`MockRef`) carries its
static type plus whatever run-time state the referencing value has; the
closure `|| ()` captures nothing, so the identity ignores that state.
-/

/-- A statically-resolved callable declaration: the static function-item type
from which `get_mock_id`'s closure type is derived. -/
inductive StaticCallable where
  | freeFn (name : Nat)
  | method (tyName : Nat) (methodName : Nat)
  | traitMethod (traitName : Nat) (tyName : Nat) (methodName : Nat)
  | monomorphized (base : StaticCallable) (tyArg : Nat)
deriving DecidableEq

/-- The `TypeId` of the `(|| ())` closure monomorphized for one static
callable type: an injective `Nat` encoding standing for the process-wide
unique type identifier the language assigns. -/
def typeIdOf : StaticCallable → Nat
  | .freeFn n => Nat.pair 0 n
  | .method t m => Nat.pair 1 (Nat.pair t m)
  | .traitMethod tr t m => Nat.pair 2 (Nat.pair tr (Nat.pair t m))
  | .monomorphized b a => Nat.pair 3 (Nat.pair (typeIdOf b) a)

/-- A runtime reference to a callable: its static type plus the referencing
value's run-time state (captured environment of the referencing expression).
Function items themselves are zero-sized, but the model lets distinct
reference values carry distinct state to express independence from it. -/
structure MockRef where
  decl : StaticCallable
  captured : Nat

/-- `CallMock::get_mock_id(&self)`: `(|| ()).type_id()`.  The closure
captures nothing and `self` is never read, so the result depends only on the
static type of the reference. -/
def get_mock_id (r : MockRef) : Nat :=
  typeIdOf r.decl

/-!
## Type-erased retrieval

`mock_repeat` erases the behavior (`Box<dyn FnMut(..) -> O>` transmuted to
`Rc<Box<dyn FnMut() -> ()>>`); `call_mock` retrieves it with the inverse
`unsafe { transmute(with) }` at the signature the call site expects.  To
state the claim about type mismatch, the erased value carries a ghost tag
recording the concrete closure type it was built from, and retrieval takes
the tag the call site expects. -/
structure ErasedBehavior where
  trueTag : Nat
  ret : Nat

/-- The retrieval step of `call_mock`: `let with: Rc<Box<dyn FnMut(..) -> O>>
= unsafe { transmute(with) }` followed by invoking the behavior.  The
transmute reinterprets unconditionally — the source compares nothing against
the expected type, so the result does not depend on `expectedTag` and `none`
(a fatal stop) is never produced here. -/
def retrieveErased (expectedTag : Nat) (e : ErasedBehavior) : Option Nat :=
  some e.ret

/-!
## Source instrumentation pass (src/derive/src/parse.rs)

The pass is embedded at the level of the syntactic data it manipulates:
identifiers are `Nat`, a function signature keeps its name, declared generic
parameters, formal-parameter count, and declared return type, and the
generated dispatch prologue records exactly the pieces `quote!` interpolates
into `#self_type :: #name #generics .mock_exists(..)` /
`.call_mock((#(#args,)*))`.
-/

/-- A declared generic parameter, one of the three `syn::GenericParam`
kinds; the payload is the parameter's identifier. -/
inductive GenericParam where
  | lifetime (id : Nat)
  | typeParam (id : Nat)
  | constParam (id : Nat)
deriving DecidableEq

/-- The identifier extracted from a generic parameter — the map in
`inject_impl`/`inject_trait`: `Lifetime(lt) => lt.lifetime.ident`,
`Type(ty) => ty.ident`, `Const(c) => c.ident`. -/
def GenericParam.ident : GenericParam → Nat
  | .lifetime i => i
  | .typeParam i => i
  | .constParam i => i

/-- The `#generics` tokens: `quote!()` (nothing) when the declared list is
empty, else the turbofish `::<idents>`. -/
def genericTokens (ps : List GenericParam) : Option (List Nat) :=
  if ps.isEmpty then none else some (ps.map GenericParam.ident)

/-- How the generated prologue qualifies the callable reference. -/
inductive SelfQual where
  | plainName
  | selfType
  | traitQualified (traitName : Nat)
deriving DecidableEq

/-- The callable reference the generated prologue uses: qualification, the
function's name, the explicitly re-applied generic arguments (`none` when the
turbofish is omitted), the number of forwarded arguments, and the
`PhantomData` return type (`none` = defaulted `()`). -/
structure Prologue where
  qual : SelfQual
  name : Nat
  genericArgs : Option (List Nat)
  argCount : Nat
  retTy : Option Nat
deriving DecidableEq

/-- A function signature as the pass reads it from `syn`: identifier,
declared generic parameters, formal-parameter count (`self` included when
present), declared return type (`none` = defaulted `()`). -/
structure FnSig where
  name : Nat
  generics : List GenericParam
  inputs : Nat
  output : Option Nat
deriving DecidableEq

/-- A body statement: either the spliced dispatch prologue or an original
statement (opaque payload). -/
inductive Stmt where
  | prologueStmt (p : Prologue)
  | original (code : Nat)
deriving DecidableEq

/-- A free function or method: signature plus body statements. -/
structure FnItem where
  sig : FnSig
  stmts : List Stmt
deriving DecidableEq

/-- The prologue `inject_fn` generates for a free function: the bare `#name`
reference, the forwarded arguments and the declared return type.  `inject_fn`
reads `item.sig.ident`, `item.sig.inputs` and `item.sig.output` only — no
generic parameters are collected, so no turbofish is emitted. -/
def fnPrologue (sig : FnSig) : Prologue :=
  { qual := .plainName
    name := sig.name
    genericArgs := none
    argCount := sig.inputs
    retTy := sig.output }

/-- `inject_fn`: splice the prologue ahead of the original statements
(`std::mem::swap` then `extend`), leaving the original statements untouched
after it. -/
def inject_fn (f : FnItem) : FnItem :=
  { f with stmts := Stmt.prologueStmt (fnPrologue f.sig) :: f.stmts }

/-- The prologue `inject_impl` generates for one method of an impl block:
`Self :: #name #generics` for an inherent impl, `<Self as #path> :: #name
#generics` for a trait impl, with the method's declared generics re-applied
as `genericTokens`. -/
def implPrologue (traitName : Option Nat) (sig : FnSig) : Prologue :=
  { qual := match traitName with
      | some t => .traitQualified t
      | none => .selfType
    name := sig.name
    genericArgs := genericTokens sig.generics
    argCount := sig.inputs
    retTy := sig.output }

/-- `inject_impl`'s per-method rewrite: splice the impl prologue ahead of the
method's original statements. -/
def injectImplMethod (traitName : Option Nat) (m : FnItem) : FnItem :=
  { m with stmts := Stmt.prologueStmt (implPrologue traitName m.sig) :: m.stmts }

/-- `inject_impl`: rewrite every method of the impl block (`trait_name` is
`item.trait_`). -/
def inject_impl (traitName : Option Nat) (methods : List FnItem) : List FnItem :=
  methods.map (injectImplMethod traitName)

/-- The prologue `inject_trait` generates for a default-bodied trait method:
`<Self as #trait_name> :: #name #generics`, with the method's declared
generics re-applied as `genericTokens`. -/
def traitPrologue (traitName : Nat) (sig : FnSig) : Prologue :=
  { qual := .traitQualified traitName
    name := sig.name
    genericArgs := genericTokens sig.generics
    argCount := sig.inputs
    retTy := sig.output }

/-- A trait method: signature plus optional default body. -/
structure TraitMethod where
  sig : FnSig
  defaultBody : Option (List Stmt)
deriving DecidableEq

/-- `inject_trait`'s per-method rewrite: a method with a default body gets
the prologue spliced ahead of it; a method without one is left as is
(`method.default.as_mut()` pattern). -/
def injectTraitMethod (traitName : Nat) (m : TraitMethod) : TraitMethod :=
  match m.defaultBody with
  | none => m
  | some b =>
    { m with defaultBody := some (Stmt.prologueStmt (traitPrologue traitName m.sig) :: b) }

/-- `inject_trait`: rewrite every method of the trait definition. -/
def inject_trait (traitName : Nat) (ms : List TraitMethod) : List TraitMethod :=
  ms.map (injectTraitMethod traitName)

/-- The head prologue of a rewritten item, when its body starts with one. -/
def headPrologue (f : FnItem) : Option Prologue :=
  match f.stmts with
  | Stmt.prologueStmt p :: _ => some p
  | _ => none

/-!
## Basic store lemmas
-/

theorem Store.setQueue_self (s : Store) (id : Nat) (q : List MockReturn) :
    s.setQueue id q id = q := by
  simp [Store.setQueue]

theorem Store.setQueue_other (s : Store) (id k : Nat) (q : List MockReturn)
    (h : k ≠ id) : s.setQueue id q k = s k := by
  simp [Store.setQueue, h]

theorem Store.add_self (s : Store) (id : Nat) (v : MockReturn) :
    s.add id v id = s id ++ [v] := by
  simp [Store.add, Store.setQueue]

theorem Store.add_other (s : Store) (id k : Nat) (v : MockReturn)
    (h : k ≠ id) : s.add id v k = s k := by
  simp [Store.add, Store.setQueue, h]

/-!
## Single-call step lemmas

One instrumented call, for each shape of head entry.
-/

theorem empty_step (s : Store) (id : Nat) (orig : Nat → Nat) (x : Nat)
    (h : s id = []) : instrumentedCall id orig x s = some (orig x, s) := by
  simp [instrumentedCall, Store.mock_exists, h]

theorem once_step (s : Store) (id r : Nat) (rest : List MockReturn)
    (orig : Nat → Nat) (x : Nat)
    (h : s id = MockReturn.mk r [] false (some 1) :: rest) :
    instrumentedCall id orig x s = some (r, s.setQueue id rest) := by
  simp [instrumentedCall, Store.mock_exists, h, call_mock, Store.get, applyAdds]

theorem finite_step_dec (s : Store) (id r m : Nat) (rest : List MockReturn)
    (orig : Nat → Nat) (x : Nat)
    (h : s id = MockReturn.mk r [] false (some (m + 2)) :: rest) :
    instrumentedCall id orig x s
      = some (r, (s.setQueue id rest).add id (MockReturn.mk r [] false (some (m + 1)))) := by
  have h1 : 1 < m + 2 := by omega
  simp [instrumentedCall, Store.mock_exists, h, call_mock, Store.get, applyAdds, h1]

theorem unlim_step (s : Store) (id r : Nat) (rest : List MockReturn)
    (orig : Nat → Nat) (x : Nat)
    (h : s id = MockReturn.mk r [] false none :: rest) :
    instrumentedCall id orig x s
      = some (r, (s.setQueue id rest).add id (MockReturn.mk r [] false none)) := by
  simp [instrumentedCall, Store.mock_exists, h, call_mock, Store.get, applyAdds]

theorem refill_step (s : Store) (id r : Nat) (rest : List MockReturn)
    (orig : Nat → Nat) (x : Nat)
    (h : s id = MockReturn.mk r [] true (some 1) :: rest) :
    instrumentedCall id orig x s
      = some (r, (s.setQueue id rest).add id (MockReturn.mk r [] true (some 1))) := by
  simp [instrumentedCall, Store.mock_exists, h, call_mock, Store.get, applyAdds]

theorem iterCalls_zero (orig : Nat → Nat) (id x : Nat) (s : Store) :
    iterCalls 0 orig id x s = some ([], s) := rfl

theorem iterCalls_step (m : Nat) (orig : Nat → Nat) (id x : Nat) (s : Store)
    (v : Nat) (s' : Store) (vs : List Nat) (s'' : Store)
    (h1 : instrumentedCall id orig x s = some (v, s'))
    (h2 : iterCalls m orig id x s' = some (vs, s'')) :
    iterCalls (m + 1) orig id x s = some (v :: vs, s'') := by
  simp [iterCalls, h1, h2]

/-!
## Run lemmas: iterated calls against a single-entry queue
-/

theorem finite_run (r id : Nat) (orig : Nat → Nat) (x : Nat) :
    ∀ n (s : Store), s id = [MockReturn.mk r [] false (some (n + 1))] →
      ∃ s', iterCalls (n + 2) orig id x s
              = some (List.replicate (n + 1) r ++ [orig x], s')
        ∧ s' id = [] ∧ ∀ k, k ≠ id → s' k = s k := by
  intro n
  induction n with
  | zero =>
    intro s h
    refine ⟨s.setQueue id [], ?_, Store.setQueue_self .., fun k hk => Store.setQueue_other _ _ _ _ hk⟩
    have st1 := once_step s id r [] orig x h
    have st2 := empty_step (s.setQueue id []) id orig x (Store.setQueue_self ..)
    exact iterCalls_step 1 orig id x s r _ [orig x] _ st1
      (iterCalls_step 0 orig id x _ (orig x) _ [] _ st2 (iterCalls_zero ..))
  | succ n ih =>
    intro s h
    have st1 := finite_step_dec s id r n [] orig x h
    have hq : ((s.setQueue id []).add id (MockReturn.mk r [] false (some (n + 1)))) id
        = [MockReturn.mk r [] false (some (n + 1))] := by
      rw [Store.add_self, Store.setQueue_self, List.nil_append]
    obtain ⟨s', hiter, hid, hoth⟩ := ih _ hq
    refine ⟨s', ?_, hid, ?_⟩
    · have := iterCalls_step (n + 2) orig id x s r _ _ _ st1 hiter
      simpa [List.replicate_succ] using this
    · intro k hk
      rw [hoth k hk, Store.add_other _ _ _ _ hk, Store.setQueue_other _ _ _ _ hk]

theorem unlim_run (r id : Nat) (orig : Nat → Nat) (x : Nat) :
    ∀ k (s : Store), s id = [MockReturn.mk r [] false none] →
      ∃ s', iterCalls k orig id x s = some (List.replicate k r, s')
        ∧ s' id = [MockReturn.mk r [] false none] ∧ ∀ j, j ≠ id → s' j = s j := by
  intro k
  induction k with
  | zero => exact fun s h => ⟨s, iterCalls_zero .., h, fun _ _ => rfl⟩
  | succ k ih =>
    intro s h
    have st1 := unlim_step s id r [] orig x h
    have hq : ((s.setQueue id []).add id (MockReturn.mk r [] false none)) id
        = [MockReturn.mk r [] false none] := by
      rw [Store.add_self, Store.setQueue_self, List.nil_append]
    obtain ⟨s', hiter, hid, hoth⟩ := ih _ hq
    refine ⟨s', ?_, hid, ?_⟩
    · have := iterCalls_step k orig id x s r _ _ _ st1 hiter
      simpa [List.replicate_succ] using this
    · intro j hj
      rw [hoth j hj, Store.add_other _ _ _ _ hj, Store.setQueue_other _ _ _ _ hj]

theorem refill_run (v id : Nat) (orig : Nat → Nat) (x : Nat) :
    ∀ k (s : Store), s id = [MockReturn.mk v [] true (some 1)] →
      ∃ s', iterCalls k orig id x s = some (List.replicate k v, s')
        ∧ s' id = [MockReturn.mk v [] true (some 1)] ∧ ∀ j, j ≠ id → s' j = s j := by
  intro k
  induction k with
  | zero => exact fun s h => ⟨s, iterCalls_zero .., h, fun _ _ => rfl⟩
  | succ k ih =>
    intro s h
    have st1 := refill_step s id v [] orig x h
    have hq : ((s.setQueue id []).add id (MockReturn.mk v [] true (some 1))) id
        = [MockReturn.mk v [] true (some 1)] := by
      rw [Store.add_self, Store.setQueue_self, List.nil_append]
    obtain ⟨s', hiter, hid, hoth⟩ := ih _ hq
    refine ⟨s', ?_, hid, ?_⟩
    · have := iterCalls_step k orig id x s v _ _ _ st1 hiter
      simpa [List.replicate_succ] using this
    · intro j hj
      rw [hoth j hj, Store.add_other _ _ _ _ hj, Store.setQueue_other _ _ _ _ hj]

theorem once_list_run (id : Nat) (orig : Nat → Nat) (x : Nat) :
    ∀ (rs : List Nat) (s : Store),
      s id = rs.map (fun r => MockReturn.mk r [] false (some 1)) →
      ∃ s', iterCalls (rs.length + 1) orig id x s = some (rs ++ [orig x], s')
        ∧ s' id = [] ∧ ∀ k, k ≠ id → s' k = s k := by
  intro rs
  induction rs with
  | nil =>
    intro s h
    refine ⟨s, ?_, h, fun _ _ => rfl⟩
    exact iterCalls_step 0 orig id x s (orig x) s [] s (empty_step s id orig x h)
      (iterCalls_zero ..)
  | cons r rs ih =>
    intro s h
    have st1 := once_step s id r (rs.map (fun r => MockReturn.mk r [] false (some 1))) orig x h
    obtain ⟨s', hiter, hid, hoth⟩ := ih _ (Store.setQueue_self ..)
    refine ⟨s', ?_, hid, ?_⟩
    · exact iterCalls_step (rs.length + 1) orig id x s r _ _ _ st1 hiter
    · intro k hk
      rw [hoth k hk, Store.setQueue_other _ _ _ _ hk]

theorem typeIdOf_inj : ∀ a b : StaticCallable, typeIdOf a = typeIdOf b → a = b := by
  intro a
  induction a with
  | freeFn n => intro b h; cases b <;> simp_all [typeIdOf, Nat.pair_eq_pair]
  | method t m => intro b h; cases b <;> simp_all [typeIdOf, Nat.pair_eq_pair]
  | traitMethod tr t m => intro b h; cases b <;> simp_all [typeIdOf, Nat.pair_eq_pair]
  | monomorphized base arg ih =>
    intro b h
    cases b with
    | freeFn n => simp [typeIdOf, Nat.pair_eq_pair] at h
    | method t m => simp [typeIdOf, Nat.pair_eq_pair] at h
    | traitMethod tr t m => simp [typeIdOf, Nat.pair_eq_pair] at h
    | monomorphized base2 arg2 =>
      simp only [typeIdOf, Nat.pair_eq_pair] at h
      obtain ⟨-, h1, h2⟩ := h
      rw [ih base2 h1, h2]

/-!
## Claim theorems
-/

/-- Claim C1: for every identity, overrides are consumed in exactly the order
they were added: `add` always appends at the queue tail, `get` always takes
the head, and three `mock_once` overrides `b1, b2, b3` make three successive
instrumented calls return `b1(), b2(), b3()` in that order, with the fourth
call falling back to the original logic. -/
theorem fifo_order_spec :
    (∀ (s : Store) (id : Nat) (v : MockReturn), (s.add id v) id = s id ++ [v])
  ∧ (∀ (s : Store) (id : Nat) (e : MockReturn) (rest : List MockReturn),
       s id = e :: rest → s.get id = some (e, s.setQueue id rest))
  ∧ (∀ (s : Store) (id : Nat) (orig : Nat → Nat) (x r1 r2 r3 : Nat), s id = [] →
       ∃ s', iterCalls 4 orig id x
           (mock_once (mock_once (mock_once s id r1 [] false) id r2 [] false) id r3 [] false)
         = some ([r1, r2, r3, orig x], s') ∧ s' id = []) := by
  refine ⟨Store.add_self, ?_, ?_⟩
  · intro s id e rest h
    simp [Store.get, h]
  · intro s id orig x r1 r2 r3 h
    have h0 : (mock_once (mock_once (mock_once s id r1 [] false) id r2 [] false) id r3 [] false) id
        = [r1, r2, r3].map (fun r => MockReturn.mk r [] false (some 1)) := by
      simp [mock_once, mock_repeat, Store.add_self, h]
    obtain ⟨s', hiter, hid, -⟩ := once_list_run id orig x [r1, r2, r3] _ h0
    exact ⟨s', hiter, hid⟩

/-- Closed witness for C1: three overrides returning 10, 20, 30 on identity 0,
original logic `z + 1`, all from the empty store. -/
theorem fifo_order_spec_w :
    ∃ s', iterCalls 4 (fun z => z + 1) 0 5
        (mock_once (mock_once (mock_once Store.empty 0 10 [] false) 0 20 [] false) 0 30 [] false)
      = some ([10, 20, 30, 6], s') ∧ s' 0 = [] :=
  fifo_order_spec.2.2 Store.empty 0 (fun z => z + 1) 5 10 20 30 rfl

/-- Claim C2: `mock_repeat(Some(n), b)` with `n ≥ 1` makes exactly `n`
consumptions invoke `b`, the `(n+1)`-th call runs original logic, and the
queue is empty afterward; moreover every consuming `call_mock` performs
exactly one dequeue (the head) and at most one enqueue (at the tail). -/
theorem finite_repeat_spec :
    (∀ (n r : Nat) (s : Store) (id : Nat) (orig : Nat → Nat) (x : Nat),
       1 ≤ n → s id = [] →
       ∃ s', iterCalls (n + 1) orig id x (mock_repeat s id (some n) r [] false)
               = some (List.replicate n r ++ [orig x], s') ∧ s' id = [])
  ∧ (∀ (s : Store) (id : Nat) (e : MockReturn) (rest : List MockReturn),
       s id = e :: rest → e.adds = [] → e.refillSelf = false →
       ∃ v s', call_mock id s = some (v, s')
         ∧ (s' id = rest ∨ ∃ e', s' id = rest ++ [e'])) := by
  constructor
  · intro n r s id orig x hn h
    obtain ⟨m, rfl⟩ : ∃ m, n = m + 1 := ⟨n - 1, by omega⟩
    have h0 : (mock_repeat s id (some (m + 1)) r [] false) id
        = [MockReturn.mk r [] false (some (m + 1))] := by
      simp [mock_repeat, Store.add_self, h]
    obtain ⟨s', hiter, hid, -⟩ := finite_run r id orig x m _ h0
    exact ⟨s', hiter, hid⟩
  · intro s id e rest h ha hf
    obtain ⟨r, adds, refill, rep⟩ := e
    simp only [MockReturn.adds] at ha
    simp only [MockReturn.refillSelf] at hf
    subst ha; subst hf
    cases rep with
    | none =>
      refine ⟨r, (s.setQueue id rest).add id (MockReturn.mk r [] false none), ?_, ?_⟩
      · simp [call_mock, Store.get, h, applyAdds]
      · exact Or.inr ⟨_, by rw [Store.add_self, Store.setQueue_self]⟩
    | some p =>
      by_cases hp : p > 1
      · refine ⟨r, (s.setQueue id rest).add id (MockReturn.mk r [] false (some (p - 1))), ?_, ?_⟩
        · simp [call_mock, Store.get, h, applyAdds, hp]
        · exact Or.inr ⟨_, by rw [Store.add_self, Store.setQueue_self]⟩
      · refine ⟨r, s.setQueue id rest, ?_, Or.inl (Store.setQueue_self ..)⟩
        simp [call_mock, Store.get, h, applyAdds, hp]

/-- Closed witness for C2: `mock_repeat(Some(3), b)` with `b` returning 7 on
identity 0; four calls yield 7, 7, 7 and then the original `z + 1`. -/
theorem finite_repeat_spec_w :
    ∃ s', iterCalls 4 (fun z => z + 1) 0 5 (mock_repeat Store.empty 0 (some 3) 7 [] false)
        = some ([7, 7, 7, 6], s') ∧ s' 0 = [] :=
  finite_repeat_spec.1 3 7 Store.empty 0 (fun z => z + 1) 5 (by omega) rfl

/-- Claim C3: after `mock_repeat(None, b)` on an otherwise-unmocked identity,
every one of `k` subsequent calls invokes `b` and the entry stays queued
unchanged (no implicit expiry for any `k`); after a per-identity
`clear_mocks()` the next call runs original logic. -/
theorem unlimited_persistence_spec :
    ∀ (r : Nat) (s : Store) (id : Nat) (orig : Nat → Nat) (x k : Nat), s id = [] →
      ∃ s', iterCalls k orig id x (mock_repeat s id none r [] false)
              = some (List.replicate k r, s')
        ∧ s' id = [MockReturn.mk r [] false none]
        ∧ instrumentedCall id orig x (clear_mocks s' id)
            = some (orig x, clear_mocks s' id) := by
  intro r s id orig x k h
  have h0 : (mock_repeat s id none r [] false) id = [MockReturn.mk r [] false none] := by
    simp [mock_repeat, Store.add_self, h]
  obtain ⟨s', h1, h2, -⟩ := unlim_run r id orig x k _ h0
  refine ⟨s', h1, h2, empty_step _ _ _ _ ?_⟩
  simp [clear_mocks, Store.remove, Store.setQueue_self]

/-- Closed witness for C3: unlimited override returning 9 on identity 0,
five calls all return 9, and after `clear_mocks` the original `z * 2` runs. -/
theorem unlimited_persistence_spec_w :
    ∃ s', iterCalls 5 (fun z => z * 2) 0 3 (mock_repeat Store.empty 0 none 9 [] false)
        = some ([9, 9, 9, 9, 9], s')
      ∧ s' 0 = [MockReturn.mk 9 [] false none]
      ∧ instrumentedCall 0 (fun z => z * 2) 3 (clear_mocks s' 0)
          = some (6, clear_mocks s' 0) :=
  unlimited_persistence_spec 9 Store.empty 0 (fun z => z * 2) 3 5 rfl

/-- Claim C5: a self-refilling override (a behavior that re-registers itself
via `mock_once` for its own identity while being invoked) keeps every one of
`k` subsequent calls overridden, because the consumed entry is fully detached
from the store before its behavior runs; after a per-identity `clear_mocks()`
the next call runs original logic. -/
theorem self_refilling_spec :
    ∀ (v : Nat) (s : Store) (id : Nat) (orig : Nat → Nat) (x k : Nat), s id = [] →
      ∃ s', iterCalls k orig id x (mock_once s id v [] true)
              = some (List.replicate k v, s')
        ∧ s' id = [MockReturn.mk v [] true (some 1)]
        ∧ instrumentedCall id orig x (clear_mocks s' id)
            = some (orig x, clear_mocks s' id) := by
  intro v s id orig x k h
  have h0 : (mock_once s id v [] true) id = [MockReturn.mk v [] true (some 1)] := by
    simp [mock_once, mock_repeat, Store.add_self, h]
  obtain ⟨s', h1, h2, -⟩ := refill_run v id orig x k _ h0
  refine ⟨s', h1, h2, empty_step _ _ _ _ ?_⟩
  simp [clear_mocks, Store.remove, Store.setQueue_self]

/-- Closed witness for C5: a self-refilling override returning 4 on identity
0 survives six calls, and after `clear_mocks` the original `z + 10` runs. -/
theorem self_refilling_spec_w :
    ∃ s', iterCalls 6 (fun z => z + 10) 0 1 (mock_once Store.empty 0 4 [] true)
        = some ([4, 4, 4, 4, 4, 4], s')
      ∧ s' 0 = [MockReturn.mk 4 [] true (some 1)]
      ∧ instrumentedCall 0 (fun z => z + 10) 1 (clear_mocks s' 0)
          = some (11, clear_mocks s' 0) :=
  self_refilling_spec 4 Store.empty 0 (fun z => z + 10) 1 6 rfl

/-- Claim C6: `call_mock` invoked while no override entry is queued for the
identity fails fatally (`panic!("mock should exist")`, embedded as `none`)
rather than falling through to original logic. -/
theorem missing_entry_fatal_spec :
    ∀ (s : Store) (id : Nat), s id = [] → call_mock id s = none := by
  intro s id h
  simp [call_mock, Store.get, h]

/-- Closed witness for C6: calling `call_mock` on the empty store panics. -/
theorem missing_entry_fatal_spec_w : call_mock 0 Store.empty = none :=
  missing_entry_fatal_spec Store.empty 0 rfl

/-- Claim C10: `mock_repeat(Some(0), b)` is observably equivalent to
`mock_once(b)`: the count-zero entry is accepted (`add` appends it like any
other count), its one consumption invokes `b` exactly once and discards it
(`repeat > 1` fails for both 0 and 1), leaving the queue empty. -/
theorem repeat_zero_equiv_once_spec :
    (∀ (s : Store) (id : Nat) (rep : Option Nat) (r : Nat),
       (mock_repeat s id rep r [] false) id = s id ++ [MockReturn.mk r [] false rep])
  ∧ (∀ (s : Store) (id r : Nat) (orig : Nat → Nat) (x : Nat), s id = [] →
       instrumentedCall id orig x (mock_repeat s id (some 0) r [] false)
         = instrumentedCall id orig x (mock_once s id r [] false)
     ∧ ∃ s', instrumentedCall id orig x (mock_repeat s id (some 0) r [] false)
               = some (r, s') ∧ s' id = []) := by
  constructor
  · intro s id rep r
    exact Store.add_self ..
  · intro s id r orig x h
    have hA : (mock_repeat s id (some 0) r [] false) id
        = [MockReturn.mk r [] false (some 0)] := by
      simp [mock_repeat, Store.add_self, h]
    have hB : (mock_once s id r [] false) id
        = [MockReturn.mk r [] false (some 1)] := by
      simp [mock_once, mock_repeat, Store.add_self, h]
    have eA : instrumentedCall id orig x (mock_repeat s id (some 0) r [] false)
        = some (r, (mock_repeat s id (some 0) r [] false).setQueue id []) := by
      simp [instrumentedCall, Store.mock_exists, hA, call_mock, Store.get, applyAdds]
    have eB := once_step _ id r [] orig x hB
    have hstores : (mock_repeat s id (some 0) r [] false).setQueue id []
        = (mock_once s id r [] false).setQueue id [] := by
      funext kk
      by_cases hk : kk = id
      · subst hk
        rw [Store.setQueue_self, Store.setQueue_self]
      · rw [Store.setQueue_other _ _ _ _ hk, Store.setQueue_other _ _ _ _ hk]
        simp [mock_once, mock_repeat, Store.add_other _ _ _ _ hk]
    exact ⟨by rw [eA, eB, hstores], _, eA, Store.setQueue_self ..⟩

/-- Closed witness for C10: on identity 0 with behavior returning 8, the
count-zero and count-one registrations produce identical calls. -/
theorem repeat_zero_equiv_once_spec_w :
    instrumentedCall 0 (fun z => z) 2 (mock_repeat Store.empty 0 (some 0) 8 [] false)
      = instrumentedCall 0 (fun z => z) 2 (mock_once Store.empty 0 8 [] false)
    ∧ ∃ s', instrumentedCall 0 (fun z => z) 2 (mock_repeat Store.empty 0 (some 0) 8 [] false)
        = some (8, s') ∧ s' 0 = [] :=
  (repeat_zero_equiv_once_spec.2 Store.empty 0 8 (fun z => z) 2 rfl)

/-- Claim C4: `get_mock_id` yields equal tokens for any two references to the
same statically-resolved callable declaration, unequal tokens for references
to distinct declarations (same-named methods on different types, distinct
generic instantiations included), and the token is independent of the
captured state of the referencing value. -/
theorem identity_stability_spec :
    (∀ a b : MockRef, a.decl = b.decl → get_mock_id a = get_mock_id b)
  ∧ (∀ a b : MockRef, a.decl ≠ b.decl → get_mock_id a ≠ get_mock_id b)
  ∧ (∀ (d : StaticCallable) (c1 c2 : Nat),
       get_mock_id (MockRef.mk d c1) = get_mock_id (MockRef.mk d c2)) := by
  refine ⟨?_, ?_, ?_⟩
  · intro a b h
    simp [get_mock_id, h]
  · intro a b h hcontra
    exact h (typeIdOf_inj a.decl b.decl hcontra)
  · intro d c1 c2
    rfl

/-- Closed witness for C4: a method named 0 on type 1 and the same-named
method 0 on type 2 get distinct tokens, with distinct captured states too. -/
theorem identity_stability_spec_w :
    (MockRef.mk (StaticCallable.method 1 0) 3).decl
      ≠ (MockRef.mk (StaticCallable.method 2 0) 4).decl
  ∧ get_mock_id (MockRef.mk (StaticCallable.method 1 0) 3)
      ≠ get_mock_id (MockRef.mk (StaticCallable.method 2 0) 4) :=
  ⟨by decide,
   identity_stability_spec.2.1 (MockRef.mk (StaticCallable.method 1 0) 3)
     (MockRef.mk (StaticCallable.method 2 0) 4) (by decide)⟩

/-- Claim C7: with no override ever registered for the identity, the
existence probe returns false, the instrumented call executes the original
logic on its argument and leaves the store untouched, and the rewrite keeps
every original body statement in place after the prologue. -/
theorem fallback_transparency_spec :
    (∀ (s : Store) (id : Nat), s id = [] → s.mock_exists id = false)
  ∧ (∀ (s : Store) (id : Nat) (orig : Nat → Nat) (x : Nat), s id = [] →
       instrumentedCall id orig x s = some (orig x, s))
  ∧ (∀ f : FnItem, (inject_fn f).stmts = Stmt.prologueStmt (fnPrologue f.sig) :: f.stmts) := by
  refine ⟨?_, ?_, fun f => rfl⟩
  · intro s id h
    simp [Store.mock_exists, h]
  · exact fun s id orig x h => empty_step s id orig x h

/-- Closed witness for C7: on the empty store the instrumented callable
returns exactly the original `z * 2` applied to 2. -/
theorem fallback_transparency_spec_w :
    instrumentedCall 0 (fun z => z * 2) 2 Store.empty = some (4, Store.empty) :=
  fallback_transparency_spec.2.1 Store.empty 0 (fun z => z * 2) 2 rfl

/-- Counterexample to C8: a free function declared with one type generic
parameter (`fn` name 7, generic ident 5).  `inject_fn` produces a prologue
whose callable reference carries no explicit generic arguments, whereas
re-applying the declared parameters would give the turbofish `::<5>`. -/
theorem free_fn_generics_cex :
    headPrologue (inject_fn (FnItem.mk (FnSig.mk 7 [GenericParam.typeParam 5] 1 none) []))
        = some (fnPrologue (FnSig.mk 7 [GenericParam.typeParam 5] 1 none))
    ∧ (fnPrologue (FnSig.mk 7 [GenericParam.typeParam 5] 1 none)).genericArgs
        ≠ genericTokens [GenericParam.typeParam 5] :=
  ⟨rfl, by decide⟩

/-- Amended C8: the pass collects and explicitly re-applies the declared
generic parameters of all three kinds (lifetime, type, const), in
declaration order, at the qualified callable reference for impl-block
methods (inherent and trait-impl) and for trait default bodies — but
`inject_fn` emits the bare name with no generic arguments for free
functions. -/
theorem generics_reapplied_amended :
    (∀ (tn : Option Nat) (sig : FnSig),
       (implPrologue tn sig).genericArgs = genericTokens sig.generics)
  ∧ (∀ (tn : Nat) (sig : FnSig),
       (traitPrologue tn sig).genericArgs = genericTokens sig.generics)
  ∧ (∀ ps : List GenericParam, ps ≠ [] →
       genericTokens ps = some (ps.map GenericParam.ident))
  ∧ (∀ (l t c : Nat),
       genericTokens [GenericParam.lifetime l, GenericParam.typeParam t, GenericParam.constParam c]
         = some [l, t, c])
  ∧ (∀ sig : FnSig, (fnPrologue sig).genericArgs = none) := by
  refine ⟨fun _ _ => rfl, fun _ _ => rfl, ?_, fun _ _ _ => rfl, fun _ => rfl⟩
  intro ps h
  simp [genericTokens, h]

/-- Closed witness for amended C8: a lifetime and a type parameter are
re-applied in order. -/
theorem generics_reapplied_amended_w :
    genericTokens [GenericParam.lifetime 1, GenericParam.typeParam 2] = some [1, 2] :=
  generics_reapplied_amended.2.2.1 [GenericParam.lifetime 1, GenericParam.typeParam 2]
    (by decide)

/-- Counterexample to C9: an erased behavior built from concrete closure type
0 (returning 42), retrieved at a site expecting type 1: the tags mismatch,
yet retrieval succeeds with the reinterpreted value instead of stopping
fatally — the `unsafe transmute` in `call_mock` compares nothing. -/
theorem retrieval_unchecked_cex :
    (ErasedBehavior.mk 0 42).trueTag ≠ 1
  ∧ retrieveErased 1 (ErasedBehavior.mk 0 42) = some 42 :=
  ⟨by decide, rfl⟩

/-- Amended C9: retrieval performs no runtime type check at all — its result
is independent of the type expected at the retrieval site and never fails
there; a mismatch is prevented structurally (one identity never denotes two
signatures), not detected dynamically. -/
theorem retrieval_unchecked_amended :
    (∀ (t1 t2 : Nat) (e : ErasedBehavior), retrieveErased t1 e = retrieveErased t2 e)
  ∧ (∀ (t : Nat) (e : ErasedBehavior), retrieveErased t e = some e.ret) :=
  ⟨fun _ _ _ => rfl, fun _ _ => rfl⟩

end Mockem
